import Mathlib

set_option allowUnsafeReducibility true
attribute [semireducible] Rat.add Rat.sub Rat.mul Rat.inv Rat.neg Rat.div
set_option maxRecDepth 100000

/-!
# Verification of the throw-detection pipeline of `src/analysis/stone.py`

Shallow embedding of the detection–integration–extraction pipeline of the
repository (the `plot_db` loop, `extract_peak_data`, and the batch driver
`main` of `src/analysis/stone.py`), together with theorems settling the
spec's claims about it.

Modelling choices:
* Python floats are modelled by `ℚ` (the claims are algebraic identities
  about the arithmetic performed, which is exact here); the device
  timestamp (`SensorDataModel.timestamp`, milliseconds) is an `ℤ`;
  `received_at` (wall-clock, possibly `None` in the database) is an
  `Option ℚ` of seconds.
* The fields of `SensorDataModel` that the analysis never reads
  (motor/control state, the other accel/gyro axes, the counter) are
  omitted: `plot_db` and `extract_peak_data` only read `accel_x`,
  `timestamp` and `received_at`, and the extractor copies samples whole,
  which list membership captures.
* The per-sample body of `plot_db`'s `for data in all_data` loop is the
  state-transition function `feed`; the run is a `List.foldl`.  Besides
  the Python state (`data_queue`, `over_flag`, `counter`, `peak_time`,
  `throw_id`) the state records the emitted close windows (`closes`, the
  materialised `dq = list(data_queue)` of each close) and the persisted
  events (`events`, the `throw_id`/`peak_data` pairs handed to
  `save_throw_peak_data`).  The velocity printed at a close is
  `velocityOf` of the recorded window; it is printed only, never stored,
  so `feed` does not carry it.
* Persistence (`save_throw_peak_data`) always succeeds in the model; the
  spec's `PersistenceFailure` branch is out of scope of the claims below.
-/

/-- The sample record (`SensorDataModel`), restricted to the fields the
analysis reads: device timestamp in milliseconds, wall-clock receipt time
in seconds (`None` when absent in the database), and `accel_x` in g. -/
structure SensorDataModel where
  timestamp : ℤ
  received_at : Option ℚ
  accel_x : ℚ
deriving DecidableEq

namespace Stone

/-- `G = 9.81` — gravitational acceleration, `stone.py` line 147. -/
def G : ℚ := 981 / 100

/-- `limen = 0.1` — the acceleration trigger threshold, line 150. -/
def limen : ℚ := 1 / 10

/-- One trapezoid of the integration loop (lines 165–172): rectify both
accelerations, scale by `G`, multiply by `dt = (t1 - t0) / 1000` and halve. -/
def trapezoid (p q : SensorDataModel) : ℚ :=
  (max p.accel_x 0 * G + max q.accel_x 0 * G) *
    (((q.timestamp - p.timestamp : ℤ) : ℚ) / 1000) / 2

/-- The velocity accumulated by the loop `for i in range(1, len(dq))`
(lines 162–172): the sum of `trapezoid` over adjacent pairs. -/
def velocityOf : List SensorDataModel → ℚ
  | p :: q :: rest => trapezoid p q + velocityOf (q :: rest)
  | _ => 0

/-- The qualification test of line 173: `a1 > a0` on the rectified,
`G`-scaled accelerations. -/
def qualifiesb (p q : SensorDataModel) : Bool :=
  decide (max q.accel_x 0 * G > max p.accel_x 0 * G)

/-- The `peak_time` update of lines 173–174, threaded through the same
adjacent-pair scan: every qualifying pair overwrites `peak_time` with
`dq[i].received_at`. -/
def peakScan (pt : Option ℚ) : List SensorDataModel → Option ℚ
  | p :: q :: rest => peakScan (if qualifiesb p q then q.received_at else pt) (q :: rest)
  | _ => pt

/-- The adjacent pairs `(dq[i-1], dq[i])` of a list, in scan order. -/
def adjPairs {α : Type} : List α → List (α × α)
  | p :: q :: rest => (p, q) :: adjPairs (q :: rest)
  | _ => []

/-- `extract_peak_data` (lines 93–118): keep every sample of `all_data`
whose receipt time is within `window_seconds` of the peak; samples with no
`received_at` are skipped; a missing peak yields `[]`. -/
def extract_peak_data (all_data : List SensorDataModel) (peak_time : Option ℚ)
    (window_seconds : ℚ) : List SensorDataModel :=
  match peak_time with
  | none => []
  | some pt =>
    all_data.filter fun d =>
      match d.received_at with
      | none => false
      | some rt => decide (|rt - pt| ≤ window_seconds)

/-- The loop state of `plot_db` (lines 143–195).  `queue` is the
`deque(maxlen=10)`; `closes` records each materialised `dq` at a close;
`events` records each persisted `(throw_id, peak_data)`. -/
structure RunState where
  queue : List SensorDataModel
  over_flag : Bool
  counter : ℕ
  peak_time : Option ℚ
  throw_id : ℕ
  closes : List (List SensorDataModel)
  events : List (ℕ × List SensorDataModel)
deriving DecidableEq

/-- `data_queue.append(data)` on a `deque(maxlen=10)`: append, and drop the
oldest element when the queue already holds 10. -/
def pushQueue (q : List SensorDataModel) (d : SensorDataModel) : List SensorDataModel :=
  if q.length < 10 then q ++ [d] else (q ++ [d]).drop 1

/-- `over_flag` after lines 156–157: arming on `accel_x > limen`. -/
def armAfter (st : RunState) (d : SensorDataModel) : Bool :=
  if d.accel_x > limen then true else st.over_flag

/-- `counter` after lines 156–160: reset to 0 on a trigger, then
incremented once whenever the flag is up. -/
def counterAfter (st : RunState) (d : SensorDataModel) : ℕ :=
  let c0 := if d.accel_x > limen then 0 else st.counter
  if armAfter st d then c0 + 1 else c0

/-- The close test of line 161:
`over_flag and (data.accel_x < 0 or counter > len(data_queue))`. -/
def closing (st : RunState) (d : SensorDataModel) : Prop :=
  armAfter st d ∧ (d.accel_x < 0 ∨ counterAfter st d > (pushQueue st.queue d).length)

instance (st : RunState) (d : SensorDataModel) : Decidable (closing st d) := by
  unfold closing; infer_instance

/-- One iteration of `plot_db`'s `for data in all_data` loop
(lines 154–195): append to the queue; arm and reset the counter on
`accel_x > limen`; increment the counter while armed; on
`accel_x < 0 or counter > len(data_queue)` close the window — rescan it for
the peak, and, when an output DB is configured, the peak is set
(`if output_db_path and peak_time`) and the extraction is non-empty
(`if peak_data`), persist the extract and advance `throw_id`; finally clear
`over_flag`. -/
def feed (output_db : Bool) (all_data : List SensorDataModel)
    (st : RunState) (d : SensorDataModel) : RunState :=
  let queue := pushQueue st.queue d
  if closing st d then
    let pt := peakScan st.peak_time queue
    let base : RunState :=
      { queue := queue, over_flag := false, counter := counterAfter st d,
        peak_time := pt, throw_id := st.throw_id,
        closes := st.closes ++ [queue], events := st.events }
    if output_db ∧ pt.isSome then
      let pd := extract_peak_data all_data pt 1
      if pd ≠ [] then
        { base with events := st.events ++ [(st.throw_id, pd)],
                    throw_id := st.throw_id + 1 }
      else base
    else base
  else
    { st with queue := queue, over_flag := armAfter st d, counter := counterAfter st d }

/-- The initial loop state of `plot_db` (lines 143–151). -/
def initState (start_throw_id : ℕ) : RunState :=
  { queue := [], over_flag := false, counter := 0, peak_time := none,
    throw_id := start_throw_id, closes := [], events := [] }

/-- The detection loop of `plot_db` over a whole source.  The Python
function returns `throw_id`, i.e. `(plot_db …).throw_id` here; the rest of
the state is kept for analysis. -/
def plot_db (output_db : Bool) (start_throw_id : ℕ)
    (all_data : List SensorDataModel) : RunState :=
  all_data.foldl (feed output_db all_data) (initState start_throw_id)

/-- The loop state of `plot_db out start src` after its first `k`
iterations (the state once the `k`-th sample has been processed). -/
def stateAfter (output_db : Bool) (start_throw_id : ℕ)
    (src : List SensorDataModel) (k : ℕ) : RunState :=
  (src.take k).foldl (feed output_db src) (initState start_throw_id)

/-- One source of the batch loop of `main` (lines 288–292): run `plot_db`
with the running global throw id and collect the events it appended to the
shared output DB. -/
def batchStep (acc : ℕ × List (ℕ × List SensorDataModel))
    (src : List SensorDataModel) : ℕ × List (ℕ × List SensorDataModel) :=
  let st := plot_db true acc.1 src
  (st.throw_id, acc.2 ++ st.events)

/-- The batch driver `main` (lines 284–294): thread the global throw id
through `plot_db` over each source in turn, accumulating all persisted
events of the shared output DB. -/
def runBatch (start : ℕ) (sources : List (List SensorDataModel)) :
    ℕ × List (ℕ × List SensorDataModel) :=
  sources.foldl batchStep (start, [])

/-! ## Spec-side definitions (for refinement claims), written from the
spec's words, to be compared with the code-derived definitions above. -/

/-- Spec §4.2's integral, as worded in claim C1: the sum over adjacent
pairs `(i-1, i)` of
`(max(accel_x[i-1], 0) + max(accel_x[i], 0)) * 9.81 * (timestamp_ms[i] - timestamp_ms[i-1]) / 1000 / 2`. -/
def specVelocity (dq : List SensorDataModel) : ℚ :=
  ((adjPairs dq).map fun pq =>
    (max pq.1.accel_x 0 + max pq.2.accel_x 0) * (981 / 100) *
      (((pq.2.timestamp - pq.1.timestamp : ℤ) : ℚ) / 1000) / 2).sum

/-- Spec §4.3's qualification, as worded in claim C3: the rectified
acceleration `a1 = max(accel_x[i], 0)` strictly exceeds
`a0 = max(accel_x[i-1], 0)` (no `G` factor). -/
def specQualifies (p q : SensorDataModel) : Bool :=
  decide (max q.accel_x 0 > max p.accel_x 0)

/-! ## Integrator lemmas -/

/-- The code's accumulation equals the spec's per-pair formula: the `G`
factor distributes over the rectified sum. -/
theorem velocityOf_eq_specVelocity (dq : List SensorDataModel) :
    velocityOf dq = specVelocity dq := by
  induction dq with
  | nil => rfl
  | cons p tl ih =>
    cases tl with
    | nil => rfl
    | cons q rest =>
      show trapezoid p q + velocityOf (q :: rest) = specVelocity (p :: q :: rest)
      rw [ih]
      show _ = ((adjPairs (p :: q :: rest)).map _).sum
      rw [show adjPairs (p :: q :: rest) = (p, q) :: adjPairs (q :: rest) from rfl,
        List.map_cons, List.sum_cons]
      unfold specVelocity
      congr 1
      unfold trapezoid G
      ring

/-- A window whose accelerations are all non-positive integrates to 0. -/
theorem velocityOf_of_nonpos (dq : List SensorDataModel)
    (h : ∀ d ∈ dq, d.accel_x ≤ 0) : velocityOf dq = 0 := by
  induction dq with
  | nil => rfl
  | cons p tl ih =>
    cases tl with
    | nil => rfl
    | cons q rest =>
      show trapezoid p q + velocityOf (q :: rest) = 0
      have hp : p.accel_x ≤ 0 := h p (by simp)
      have hq : q.accel_x ≤ 0 := h q (by simp)
      have ht : trapezoid p q = 0 := by
        unfold trapezoid
        rw [max_eq_right hp, max_eq_right hq]
        ring
      rw [ht, ih (fun d hd => h d (List.mem_cons_of_mem _ hd)), add_zero]

/-- C1: on a window of at least 2 samples with strictly increasing device
timestamps, the integrator's output is the spec's sum of trapezoids
`(max(a[i-1],0) + max(a[i],0)) * 9.81 * (t[i] - t[i-1]) / 1000 / 2` over
adjacent pairs, and a window whose `accel_x` are all `≤ 0` yields
velocity 0. -/
theorem C1_integrator_refines_spec (dq : List SensorDataModel)
    (hlen : 2 ≤ dq.length)
    (hmono : dq.Chain' fun p q => p.timestamp < q.timestamp) :
    velocityOf dq = specVelocity dq ∧
      ((∀ d ∈ dq, d.accel_x ≤ 0) → velocityOf dq = 0) :=
  ⟨velocityOf_eq_specVelocity dq, velocityOf_of_nonpos dq⟩

/-- A two-sample window with increasing timestamps, for the C1 witness. -/
def c1win : List SensorDataModel := [⟨0, some 0, 1/2⟩, ⟨100, some (1/10), 3/10⟩]

/-- Witness for C1 at a concrete two-sample window. -/
theorem C1_integrator_refines_spec_witness :
    (2 ≤ c1win.length ∧ c1win.Chain' fun p q => p.timestamp < q.timestamp) ∧
      velocityOf c1win = specVelocity c1win ∧
      ((∀ d ∈ c1win, d.accel_x ≤ 0) → velocityOf c1win = 0) :=
  ⟨⟨by decide, by norm_num [c1win, List.chain'_cons]⟩,
    C1_integrator_refines_spec c1win (by decide) (by norm_num [c1win, List.chain'_cons])⟩

/-- Two samples whose device timestamps go backwards (dt < 0) while the
acceleration stays positive: the pair refuting C2. -/
def c2a : SensorDataModel := ⟨1000, some 0, 1⟩

/-- Second sample of the C2 counterexample, 100 ms *earlier* on the device
clock. -/
def c2b : SensorDataModel := ⟨900, some 1, 1⟩

/-- C2 counterexample: the code has no `dt ≤ 0` guard (lines 162–172
accumulate `(a0+a1)*dt/2` unconditionally), so an adjacent pair with
`dt = (timestamp_ms[i] - timestamp_ms[i-1]) / 1000 ≤ 0` contributes
`-0.981`, not zero, and the window's total velocity is affected. -/
theorem C2_counterexample :
    ((c2b.timestamp - c2a.timestamp : ℤ) : ℚ) / 1000 ≤ 0 ∧
      trapezoid c2a c2b ≠ 0 ∧ velocityOf [c2a, c2b] ≠ 0 := by
  refine ⟨by norm_num [c2a, c2b], ?_, ?_⟩ <;>
    · show ¬ _ = (0 : ℚ)
      norm_num [velocityOf, trapezoid, c2a, c2b, G]

/-- C2 amended: a pair with `dt = 0` does contribute exactly zero and
processing continues with the next pair, but a pair with `dt < 0`
contributes `(a0+a1)*dt/2 ≤ 0` — a (possibly negative) amount that is
added into the total velocity, there being no `dt ≤ 0` guard. -/
theorem C2_amended (p q : SensorDataModel)
    (hdt : ((q.timestamp - p.timestamp : ℤ) : ℚ) / 1000 ≤ 0) :
    trapezoid p q ≤ 0 ∧
      (q.timestamp = p.timestamp → trapezoid p q = 0) ∧
      ∀ rest, velocityOf (p :: q :: rest) = trapezoid p q + velocityOf (q :: rest) := by
  refine ⟨?_, ?_, fun rest => rfl⟩
  · have hp : (0 : ℚ) ≤ max p.accel_x 0 := le_max_right _ _
    have hq : (0 : ℚ) ≤ max q.accel_x 0 := le_max_right _ _
    have hG : (0 : ℚ) < G := by norm_num [G]
    unfold trapezoid
    nlinarith [mul_nonneg (mul_nonneg hp hG.le) (neg_nonneg.2 hdt),
      mul_nonneg (mul_nonneg hq hG.le) (neg_nonneg.2 hdt)]
  · intro h
    unfold trapezoid
    rw [h]
    simp

/-- Witness for the amended C2 at the concrete backwards-clock pair. -/
theorem C2_amended_witness :
    ((c2b.timestamp - c2a.timestamp : ℤ) : ℚ) / 1000 ≤ 0 ∧
      (trapezoid c2a c2b ≤ 0 ∧
        (c2b.timestamp = c2a.timestamp → trapezoid c2a c2b = 0) ∧
        ∀ rest, velocityOf (c2a :: c2b :: rest) =
          trapezoid c2a c2b + velocityOf (c2b :: rest)) :=
  ⟨by norm_num [c2a, c2b], C2_amended c2a c2b (by norm_num [c2a, c2b])⟩

/-! ## Peak-locator lemmas -/

/-- The code's qualification test (on `G`-scaled rectified accelerations,
line 173) agrees with the spec's (unscaled) one, `G` being positive. -/
theorem qualifiesb_eq_specQualifies (p q : SensorDataModel) :
    qualifiesb p q = specQualifies p q := by
  unfold qualifiesb specQualifies
  have hG : (0 : ℚ) < G := by norm_num [G]
  simp [mul_lt_mul_right hG]

/-- `peakScan` is the fold that overwrites the accumulator with
`received_at` of the second element of each qualifying adjacent pair. -/
theorem peakScan_eq_foldl (dq : List SensorDataModel) : ∀ pt : Option ℚ,
    peakScan pt dq =
      ((adjPairs dq).filter fun pq => qualifiesb pq.1 pq.2).foldl
        (fun _ pq => pq.2.received_at) pt := by
  induction dq with
  | nil => intro pt; rfl
  | cons p tl ih =>
    cases tl with
    | nil => intro pt; rfl
    | cons q rest =>
      intro pt
      show peakScan (if qualifiesb p q then q.received_at else pt) (q :: rest) = _
      rw [ih]
      rw [show adjPairs (p :: q :: rest) = (p, q) :: adjPairs (q :: rest) from rfl,
        List.filter_cons]
      by_cases h : qualifiesb p q
      · simp [h]
      · simp [h]

/-- Folding a constant-update function over a list whose last element is
`last` returns the update at `last`. -/
theorem foldl_overwrite_getLast {α β : Type} (g : α → β) :
    ∀ (l : List α) (init : β) (last : α), l.getLast? = some last →
      l.foldl (fun _ x => g x) init = g last := by
  intro l
  induction l with
  | nil => intro init last h; simp at h
  | cons x t ih =>
    intro init last h
    cases t with
    | nil =>
      simp only [List.getLast?_singleton, Option.some.injEq] at h
      simpa using congrArg g h
    | cons y s =>
      show (y :: s).foldl (fun _ x => g x) (g x) = _
      exact ih (g x) last (by rw [← h, List.getLast?_cons_cons])

/-- C3: whenever some adjacent pair of the window qualifies (rectified
`a1 > a0`), the located peak time is the `received_at` of sample `i` of the
*last* qualifying pair in scan order, whatever `peak_time` held before. -/
theorem C3_peak_is_last_qualifying (pt0 : Option ℚ) (dq : List SensorDataModel)
    (lastpq : SensorDataModel × SensorDataModel)
    (h : ((adjPairs dq).filter fun pq => specQualifies pq.1 pq.2).getLast? = some lastpq) :
    peakScan pt0 dq = lastpq.2.received_at := by
  have hpred : (fun pq : SensorDataModel × SensorDataModel => qualifiesb pq.1 pq.2) =
      fun pq => specQualifies pq.1 pq.2 := by
    funext pq; exact qualifiesb_eq_specQualifies pq.1 pq.2
  rw [peakScan_eq_foldl, hpred]
  exact foldl_overwrite_getLast (fun pq : SensorDataModel × SensorDataModel => pq.2.received_at)
    _ pt0 lastpq h

/-- A three-sample window whose first pair qualifies and second does not,
for the C3 witness. -/
def c3win : List SensorDataModel :=
  [⟨0, some 1, 1/5⟩, ⟨100, some 2, 2/5⟩, ⟨200, some 3, 1/10⟩]

/-- Witness for C3 at a concrete window: the scan lands on the second
sample's receipt time. -/
theorem C3_peak_is_last_qualifying_witness :
    (((adjPairs c3win).filter fun pq => specQualifies pq.1 pq.2).getLast? =
        some (⟨0, some 1, 1/5⟩, ⟨100, some 2, 2/5⟩)) ∧
      peakScan none c3win = some 2 :=
  ⟨by decide,
    C3_peak_is_last_qualifying none c3win (⟨0, some 1, 1/5⟩, ⟨100, some 2, 2/5⟩) (by decide)⟩

/-- The qualification predicate on pairs, as a function equation. -/
theorem qualifies_pred_eq :
    (fun pq : SensorDataModel × SensorDataModel => qualifiesb pq.1 pq.2) =
      fun pq => specQualifies pq.1 pq.2 := by
  funext pq; exact qualifiesb_eq_specQualifies pq.1 pq.2

/-- A window with no qualifying pair leaves the scanned peak unchanged. -/
theorem peakScan_of_no_qualifying (pt : Option ℚ) (dq : List SensorDataModel)
    (hq : ((adjPairs dq).filter fun pq => specQualifies pq.1 pq.2) = []) :
    peakScan pt dq = pt := by
  rw [peakScan_eq_foldl, qualifies_pred_eq, hq]
  rfl

/-- The source refuting C4: a first burst (samples 1–3) closes with a
qualifying pair and is persisted; ten more samples (4–13) of strictly
decreasing positive acceleration arm the detector again and close at the
final negative sample, producing a second window with *no* qualifying
pair — which shares no samples with the first window. -/
def c4data : List SensorDataModel :=
  [⟨100, some 1, 1/2⟩, ⟨200, some 2, 3/5⟩, ⟨300, some 3, -1/5⟩,
   ⟨400, some 4, 1/2⟩, ⟨500, some 5, 2/5⟩, ⟨600, some 6, 3/10⟩,
   ⟨700, some 7, 1/4⟩, ⟨800, some 8, 1/5⟩, ⟨900, some 9, 9/50⟩,
   ⟨1000, some 10, 4/25⟩, ⟨1100, some 11, 7/50⟩, ⟨1200, some 12, 3/25⟩,
   ⟨1300, some 13, -1/10⟩]

/-- C4 counterexample: running `plot_db` on `c4data` emits two close
windows; the second one has no qualifying pair, yet — because `peak_time`
is never reset between events (line 149 initialises it once) — the run
persists *two* events and advances the throw id twice: the second event is
extracted around the stale peak of the first window instead of being
dropped. -/
theorem C4_counterexample :
    ((plot_db true 1 c4data).closes.map
        fun w => ((adjPairs w).filter fun pq => specQualifies pq.1 pq.2).isEmpty) =
      [false, true] ∧
      (plot_db true 1 c4data).events.length = 2 ∧
      (plot_db true 1 c4data).throw_id = 3 ∧
      (plot_db true 1 c4data).peak_time = some 2 := by
  decide

/-- C4 amended: a window with no qualifying pair leaves `peak_time`
unchanged; the event is dropped (nothing persisted, id not advanced) only
when `peak_time` was still `none` — i.e. when no earlier window of the
same run had a qualifying pair.  Otherwise the event is extracted and
persisted around the stale peak of an earlier window (see the
counterexample). -/
theorem C4_amended (out : Bool) (all : List SensorDataModel)
    (st : RunState) (d : SensorDataModel)
    (hq : ((adjPairs (pushQueue st.queue d)).filter fun pq => specQualifies pq.1 pq.2) = [])
    (hpt : st.peak_time = none) :
    (feed out all st d).events = st.events ∧
      (feed out all st d).throw_id = st.throw_id ∧
      (feed out all st d).peak_time = none := by
  have hscan : peakScan st.peak_time (pushQueue st.queue d) = none := by
    rw [peakScan_of_no_qualifying st.peak_time _ hq, hpt]
  by_cases hc : closing st d
  · simp [feed, hc, hscan]
  · simp [feed, hc, hpt]

/-- A low-acceleration first sample fed from a fresh state, for the C4
witness. -/
def c4lone : SensorDataModel := ⟨0, some 0, 1/20⟩

/-- Witness for the amended C4 at a concrete fresh state and sample. -/
theorem C4_amended_witness :
    (((adjPairs (pushQueue (initState 7).queue c4lone)).filter
          fun pq => specQualifies pq.1 pq.2) = [] ∧
        (initState 7).peak_time = none) ∧
      (feed false [] (initState 7) c4lone).events = (initState 7).events ∧
      (feed false [] (initState 7) c4lone).throw_id = (initState 7).throw_id ∧
      (feed false [] (initState 7) c4lone).peak_time = none :=
  ⟨⟨by decide, by decide⟩, C4_amended false [] (initState 7) c4lone (by decide) (by decide)⟩

/-! ## Extractor lemmas -/

/-- Receipt-time order on samples: whenever both receipt times are
present, the first is no later than the second. -/
def rcvLE (a b : SensorDataModel) : Bool :=
  match a.received_at, b.received_at with
  | some ra, some rb => decide (ra ≤ rb)
  | _, _ => true

/-- C5: over a source whose receipt times are non-decreasing, the
extractor returns exactly the samples of the full source whose receipt
time is within `half_width` of `peak_time` (samples lacking a receipt
time are skipped), and the result is again in non-decreasing receipt-time
order. -/
theorem C5_extractor_exact_and_sorted (all : List SensorDataModel) (pt hw : ℚ)
    (hsorted : all.Pairwise fun a b => rcvLE a b = true) :
    (∀ d, d ∈ extract_peak_data all (some pt) hw ↔
        d ∈ all ∧ ∃ rt, d.received_at = some rt ∧ |rt - pt| ≤ hw) ∧
      (extract_peak_data all (some pt) hw).Pairwise fun a b => rcvLE a b = true := by
  constructor
  · intro d
    unfold extract_peak_data
    rw [List.mem_filter]
    constructor
    · rintro ⟨hmem, hp⟩
      refine ⟨hmem, ?_⟩
      cases hr : d.received_at with
      | none => rw [hr] at hp; simp at hp
      | some rt =>
        rw [hr] at hp
        exact ⟨rt, rfl, by simpa using hp⟩
    · rintro ⟨hmem, rt, hrt, hle⟩
      refine ⟨hmem, ?_⟩
      rw [hrt]
      simpa using hle
  · exact hsorted.filter _

/-- A three-sample source in receipt order, for the C5 witness. -/
def c5src : List SensorDataModel :=
  [⟨0, some 1, 0⟩, ⟨100, some 2, 0⟩, ⟨200, some 4, 0⟩]

/-- Witness for C5 at a concrete sorted source: membership is exactly the
`|rt - pt| ≤ hw` test and the output stays sorted. -/
theorem C5_extractor_exact_and_sorted_witness :
    (c5src.Pairwise fun a b => rcvLE a b = true) ∧
      ((∀ d, d ∈ extract_peak_data c5src (some 2) 1 ↔
          d ∈ c5src ∧ ∃ rt, d.received_at = some rt ∧ |rt - 2| ≤ 1) ∧
        (extract_peak_data c5src (some 2) 1).Pairwise fun a b => rcvLE a b = true) :=
  ⟨by decide, C5_extractor_exact_and_sorted c5src 2 1 (by decide)⟩

/-! ## Single-step (`feed`) lemmas -/

/-- `feed` always stores the pushed queue, whatever branch it takes. -/
theorem feed_queue (out : Bool) (all : List SensorDataModel)
    (st : RunState) (d : SensorDataModel) :
    (feed out all st d).queue = pushQueue st.queue d := by
  simp only [feed]
  split_ifs <;> rfl

/-- `feed` appends the pushed queue to `closes` exactly when the close
condition fires. -/
theorem feed_closes (out : Bool) (all : List SensorDataModel)
    (st : RunState) (d : SensorDataModel) :
    (feed out all st d).closes =
      if closing st d then st.closes ++ [pushQueue st.queue d] else st.closes := by
  simp only [feed]
  split_ifs <;> rfl

/-- One `feed` step either leaves the persisted events and the throw id
unchanged, or persists exactly one non-empty extract under the current id
and advances the id by one. -/
theorem feed_events_cases (out : Bool) (all : List SensorDataModel)
    (st : RunState) (d : SensorDataModel) :
    ((feed out all st d).events = st.events ∧
        (feed out all st d).throw_id = st.throw_id) ∨
      ∃ pd, pd ≠ [] ∧
        (feed out all st d).events = st.events ++ [(st.throw_id, pd)] ∧
        (feed out all st d).throw_id = st.throw_id + 1 := by
  by_cases hc : closing st d
  · by_cases ho : out ∧ (peakScan st.peak_time (pushQueue st.queue d)).isSome
    · by_cases hpd :
        extract_peak_data all (peakScan st.peak_time (pushQueue st.queue d)) 1 = []
      · left
        constructor <;> · simp only [feed]; rw [if_pos hc, if_pos ho, if_neg (by simp [hpd])]
      · right
        refine ⟨_, hpd, ?_, ?_⟩ <;>
          · simp only [feed]; rw [if_pos hc, if_pos ho, if_pos hpd]
    · left
      constructor <;> · simp only [feed]; rw [if_pos hc, if_neg ho]
  · left
    constructor <;> · simp only [feed]; rw [if_neg hc]

/-- `feed` on a sample that does not close is just the bookkeeping update
of the queue, flag and counter. -/
theorem feed_of_not_closing (out : Bool) (all : List SensorDataModel)
    (st : RunState) (d : SensorDataModel) (hc : ¬ closing st d) :
    feed out all st d =
      { st with queue := pushQueue st.queue d, over_flag := armAfter st d,
                counter := counterAfter st d } := by
  simp only [feed]
  rw [if_neg hc]

/-- The pushed queue is never empty. -/
theorem pushQueue_ne_nil (q : List SensorDataModel) (d : SensorDataModel) :
    pushQueue q d ≠ [] := by
  unfold pushQueue
  split_ifs with h
  · simp
  · intro hcon
    have hlen := congrArg List.length hcon
    simp only [List.length_drop, List.length_append, List.length_cons,
      List.length_nil, List.length_eq_zero] at hlen
    omega

/-- The pushed queue never exceeds the deque capacity of 10. -/
theorem pushQueue_length_le (q : List SensorDataModel) (d : SensorDataModel)
    (h : q.length ≤ 10) : (pushQueue q d).length ≤ 10 := by
  unfold pushQueue
  split_ifs with h' <;> simp <;> omega

/-- Pushing onto a non-empty queue yields at least two samples. -/
theorem two_le_pushQueue_length (q : List SensorDataModel) (d : SensorDataModel)
    (hq : q ≠ []) : 2 ≤ (pushQueue q d).length := by
  have h1 : 0 < q.length := List.length_pos.mpr hq
  unfold pushQueue
  split_ifs with h <;> simp <;> omega

/-- From an unarmed state with an empty queue (the initial state), no
sample can close a window: a trigger sample has `accel_x > limen > 0` and
a one-element queue never overflows the counter. -/
theorem not_closing_of_idle_empty (st : RunState) (d : SensorDataModel)
    (hq : st.queue = []) (ho : st.over_flag = false) : ¬ closing st d := by
  rintro ⟨harm, hor⟩
  by_cases ht : d.accel_x > limen
  · have hnneg : ¬ d.accel_x < 0 := by
      have hl : (0 : ℚ) < limen := by norm_num [limen]
      intro hneg; linarith
    have hcnt : counterAfter st d = 1 := by simp [counterAfter, armAfter, ht]
    have hlen : (pushQueue st.queue d).length = 1 := by simp [pushQueue, hq]
    rcases hor with h | h
    · exact hnneg h
    · rw [hcnt, hlen] at h
      exact absurd h (by norm_num)
  · unfold armAfter at harm
    rw [if_neg ht, ho] at harm
    exact Bool.false_ne_true harm

/-- Fold invariance: a property preserved by every `feed` step on samples
of the list holds at the end of the fold. -/
theorem foldl_feed_invariant (out : Bool) (all : List SensorDataModel)
    (P : RunState → Prop) :
    ∀ l : List SensorDataModel,
      (∀ st d, d ∈ l → P st → P (feed out all st d)) →
      ∀ st, P st → P (l.foldl (feed out all) st) := by
  intro l
  induction l with
  | nil => intro _ st h; exact h
  | cons x t ih =>
    intro hstep st h
    exact ih (fun st' d hd hP => hstep st' d (List.mem_cons_of_mem x hd) hP) _
      (hstep st x (List.mem_cons_self x t) h)

/-! ## Run-level claims -/

/-- C6: when the extraction around the scanned peak comes back empty, the
`feed` step persists nothing and does not advance the event id; and over
any whole run, every persisted event carries a non-empty sample list. -/
theorem C6_empty_extract_never_persisted (out : Bool)
    (all src : List SensorDataModel) (st : RunState) (d : SensorDataModel) (start : ℕ)
    (hpd : extract_peak_data all (peakScan st.peak_time (pushQueue st.queue d)) 1 = []) :
    (feed out all st d).events = st.events ∧
      (feed out all st d).throw_id = st.throw_id ∧
      ∀ e ∈ (plot_db out start src).events, e.2 ≠ [] := by
  refine ⟨?_, ?_, ?_⟩
  · by_cases hc : closing st d
    · by_cases ho : out ∧ (peakScan st.peak_time (pushQueue st.queue d)).isSome
      · simp only [feed]; rw [if_pos hc, if_pos ho, if_neg (by simp [hpd])]
      · simp only [feed]; rw [if_pos hc, if_neg ho]
    · simp only [feed]; rw [if_neg hc]
  · by_cases hc : closing st d
    · by_cases ho : out ∧ (peakScan st.peak_time (pushQueue st.queue d)).isSome
      · simp only [feed]; rw [if_pos hc, if_pos ho, if_neg (by simp [hpd])]
      · simp only [feed]; rw [if_pos hc, if_neg ho]
    · simp only [feed]; rw [if_neg hc]
  · refine foldl_feed_invariant out src (fun s => ∀ e ∈ s.events, e.2 ≠ []) src
      (fun s x _ hP => ?_) (initState start) (by simp [initState])
    rcases feed_events_cases out src s x with ⟨he, _⟩ | ⟨pd, hpd', he, _⟩
    · rw [he]; exact hP
    · rw [he]
      intro e hme
      rcases List.mem_append.mp hme with hm | hm
      · exact hP e hm
      · rw [List.mem_singleton.mp hm]
        exact hpd'

/-- A fresh state and low sample for the C6 witness (the scan finds no
peak, so the extraction is empty). -/
def c6lone : SensorDataModel := ⟨0, some 0, 1/20⟩

/-- Witness for C6 at a concrete state, sample and one-sample run. -/
theorem C6_empty_extract_never_persisted_witness :
    extract_peak_data [c6lone]
        (peakScan (initState 4).peak_time (pushQueue (initState 4).queue c6lone)) 1 = [] ∧
      ((feed true [c6lone] (initState 4) c6lone).events = (initState 4).events ∧
        (feed true [c6lone] (initState 4) c6lone).throw_id = (initState 4).throw_id ∧
        ∀ e ∈ (plot_db true 4 [c6lone]).events, e.2 ≠ []) :=
  ⟨by decide,
    C6_empty_extract_never_persisted true [c6lone] [c6lone] (initState 4) c6lone 4 (by decide)⟩

/-- Every state reached by a fold of `feed` keeps ids consecutive: events
carry ids `s0, s0+1, …` and `throw_id` is `s0` plus the number persisted. -/
theorem foldl_feed_ids (out : Bool) (all : List SensorDataModel) (s0 : ℕ) :
    ∀ (l : List SensorDataModel) (st : RunState),
      st.events.map Prod.fst = List.range' s0 st.events.length →
      st.throw_id = s0 + st.events.length →
      (l.foldl (feed out all) st).events.map Prod.fst =
          List.range' s0 (l.foldl (feed out all) st).events.length ∧
        (l.foldl (feed out all) st).throw_id =
          s0 + (l.foldl (feed out all) st).events.length := by
  intro l
  induction l with
  | nil => intro st h1 h2; exact ⟨h1, h2⟩
  | cons x t ih =>
    intro st h1 h2
    show (t.foldl (feed out all) (feed out all st x)).events.map Prod.fst = _ ∧ _
    rcases feed_events_cases out all st x with ⟨he, ht⟩ | ⟨pd, _, he, ht⟩
    · exact ih _ (by rw [he]; exact h1) (by rw [ht, he]; exact h2)
    · refine ih _ ?_ ?_
      · rw [he, List.map_append, h1, List.length_append, h2, List.map_cons, List.map_nil,
          List.length_cons, List.length_nil, List.range'_1_concat]
      · rw [ht, he, List.length_append, h2, List.length_cons, List.length_nil]
        omega

/-- One `plot_db` run starting at id `s0` persists events with ids
`s0, s0+1, …` and returns `s0` plus the number persisted. -/
theorem plot_db_ids (out : Bool) (s0 : ℕ) (src : List SensorDataModel) :
    (plot_db out s0 src).events.map Prod.fst =
        List.range' s0 (plot_db out s0 src).events.length ∧
      (plot_db out s0 src).throw_id = s0 + (plot_db out s0 src).events.length :=
  foldl_feed_ids out src s0 src (initState s0) (by simp [initState, List.range'])
    (by simp [initState])

/-- The batch fold preserves consecutive ids across sources. -/
theorem runBatch_ids_aux (start : ℕ) :
    ∀ (sources : List (List SensorDataModel)) (acc : ℕ × List (ℕ × List SensorDataModel)),
      acc.2.map Prod.fst = List.range' start acc.2.length →
      acc.1 = start + acc.2.length →
      (sources.foldl batchStep acc).2.map Prod.fst =
          List.range' start (sources.foldl batchStep acc).2.length ∧
        (sources.foldl batchStep acc).1 = start + (sources.foldl batchStep acc).2.length := by
  intro sources
  induction sources with
  | nil => intro acc h1 h2; exact ⟨h1, h2⟩
  | cons src rest ih =>
    intro acc h1 h2
    show ((rest.foldl batchStep (batchStep acc src)).2.map Prod.fst = _) ∧ _
    obtain ⟨hsrc1, hsrc2⟩ := plot_db_ids true acc.1 src
    refine ih (batchStep acc src) ?_ ?_
    · show (acc.2 ++ (plot_db true acc.1 src).events).map Prod.fst =
        List.range' start (acc.2 ++ (plot_db true acc.1 src).events).length
      rw [List.map_append, h1, hsrc1, h2, List.length_append, List.range'_append_1]
      congr 1
      omega
    · show (plot_db true acc.1 src).throw_id =
        start + (acc.2 ++ (plot_db true acc.1 src).events).length
      rw [hsrc2, h2, List.length_append]
      omega

/-- C7: across a batch run (persistence always succeeds in this model),
the assigned event ids are exactly the consecutive sequence
`start, start+1, …` shared across sources, and the returned next id is
`start` plus the number of persisted events. -/
theorem C7_event_ids_consecutive (start : ℕ) (sources : List (List SensorDataModel)) :
    (runBatch start sources).2.map Prod.fst =
        List.range' start (runBatch start sources).2.length ∧
      (runBatch start sources).1 = start + (runBatch start sources).2.length :=
  runBatch_ids_aux start sources (start, []) (by simp [List.range']) (by simp)

/-- C8: every close window of a run holds at least 2 samples (a close with
fewer than 2 buffered samples is impossible: the buffer always contains
the current sample, and a first-sample close cannot fire), and a close
with exactly 2 buffered samples yields the single-trapezoid velocity. -/
theorem C8_two_sample_close (out : Bool) (start : ℕ) (src : List SensorDataModel) :
    (∀ w ∈ (plot_db out start src).closes, 2 ≤ w.length) ∧
      ∀ p q : SensorDataModel, velocityOf [p, q] = trapezoid p q := by
  constructor
  · have key := foldl_feed_invariant out src
      (fun s => (s.queue = [] → s.over_flag = false) ∧ ∀ w ∈ s.closes, 2 ≤ w.length)
      src ?_ (initState start) ⟨fun _ => rfl, by simp [initState]⟩
    · exact key.2
    · intro s x _ hP
      constructor
      · intro hq
        rw [feed_queue] at hq
        exact absurd hq (pushQueue_ne_nil s.queue x)
      · intro w hw
        rw [feed_closes] at hw
        split_ifs at hw with hcl
        · rcases List.mem_append.mp hw with hm | hm
          · exact hP.2 w hm
          · rw [List.mem_singleton.mp hm]
            by_cases hq : s.queue = []
            · exact absurd hcl (not_closing_of_idle_empty s x hq (hP.1 hq))
            · exact two_le_pushQueue_length s.queue x hq
        · exact hP.2 w hw
  · intro p q
    show trapezoid p q + velocityOf [q] = trapezoid p q
    rw [show velocityOf [q] = 0 from rfl, add_zero]

/-- A two-sample source that triggers on its first sample and closes on
its negative second sample, for the C8 witness. -/
def c8src : List SensorDataModel := [⟨0, some 0, 1⟩, ⟨100, some 1, -1⟩]

/-- Witness for C8: the two-sample run closes once, on the full buffer. -/
theorem C8_two_sample_close_witness :
    c8src ∈ (plot_db false 1 c8src).closes ∧ 2 ≤ c8src.length ∧
      velocityOf c8src = trapezoid ⟨0, some 0, 1⟩ ⟨100, some 1, -1⟩ :=
  ⟨by decide, (C8_two_sample_close false 1 c8src).1 c8src (by decide),
    (C8_two_sample_close false 1 c8src).2 ⟨0, some 0, 1⟩ ⟨100, some 1, -1⟩⟩

/-- C9: if no sample's `accel_x` exceeds the trigger threshold, then after
every prefix of the run the detector is still unarmed, and no close window
was emitted and no event persisted at any point. -/
theorem C9_never_armed (out : Bool) (start : ℕ) (src : List SensorDataModel)
    (h : ∀ d ∈ src, d.accel_x ≤ limen) (k : ℕ) :
    (stateAfter out start src k).over_flag = false ∧
      (stateAfter out start src k).closes = [] ∧
      (stateAfter out start src k).events = [] := by
  refine foldl_feed_invariant out src
    (fun s => s.over_flag = false ∧ s.closes = [] ∧ s.events = [])
    (src.take k) (fun s d hd hP => ?_) (initState start) ⟨rfl, rfl, rfl⟩
  have hle : d.accel_x ≤ limen := h d (List.take_subset k src hd)
  have ht : ¬ d.accel_x > limen := not_lt.mpr hle
  have harm : armAfter s d = false := by simp [armAfter, ht, hP.1]
  have hc : ¬ closing s d := fun hcl => Bool.false_ne_true (harm ▸ hcl.1)
  rw [feed_of_not_closing out src s d hc]
  exact ⟨harm, hP.2.1, hP.2.2⟩

/-- A one-sample source that never reaches the threshold, for C9. -/
def c9src : List SensorDataModel := [⟨0, some 0, 1/20⟩]

/-- Witness for C9 at the concrete sub-threshold source. -/
theorem C9_never_armed_witness :
    (∀ d ∈ c9src, d.accel_x ≤ limen) ∧
      ((stateAfter false 1 c9src 1).over_flag = false ∧
        (stateAfter false 1 c9src 1).closes = [] ∧
        (stateAfter false 1 c9src 1).events = []) :=
  ⟨by decide, C9_never_armed false 1 c9src (by decide) 1⟩

/-- The queue after a fold of `feed` is the last ten elements of the
starting queue followed by the fed samples. -/
theorem foldl_feed_queue (out : Bool) (all : List SensorDataModel) :
    ∀ (l : List SensorDataModel) (st : RunState), st.queue.length ≤ 10 →
      (l.foldl (feed out all) st).queue =
        (st.queue ++ l).drop (st.queue.length + l.length - 10) := by
  intro l
  induction l with
  | nil =>
    intro st h
    rw [List.foldl_nil, List.append_nil, List.length_nil, Nat.add_zero,
      Nat.sub_eq_zero_of_le h, List.drop_zero]
  | cons x t ih =>
    intro st h
    show (t.foldl (feed out all) (feed out all st x)).queue = _
    rw [ih (feed out all st x) (by rw [feed_queue]; exact pushQueue_length_le _ _ h),
      feed_queue]
    unfold pushQueue
    by_cases hlt : st.queue.length < 10
    · rw [if_pos hlt, List.append_assoc, List.singleton_append, List.length_append,
        List.length_cons, List.length_nil, List.length_cons]
      congr 1
      omega
    · rw [if_neg hlt]
      have h10 : st.queue.length = 10 := le_antisymm h (not_lt.mp hlt)
      rw [← @List.drop_append_of_le_length _ (st.queue ++ [x]) t 1 (by simp),
        List.drop_drop, List.append_cons]
      congr 1
      · simp only [List.length_drop, List.length_append, List.length_cons, List.length_nil]
        omega
      · simp

/-- C10: the recent-sample buffer is never cleared by a close: after the
`k`-th sample of any run the queue is exactly the last `min(k, 10)`
samples fed so far, however many windows have closed — so successive
windows within 10 samples of each other share samples. -/
theorem C10_buffer_survives_closes (out : Bool) (start : ℕ)
    (src : List SensorDataModel) (k : ℕ) :
    (stateAfter out start src k).queue =
      (src.take k).drop ((src.take k).length - 10) ∧
      (stateAfter out start src k).queue.length = min (src.take k).length 10 := by
  have key := foldl_feed_queue out src (src.take k) (initState start) (by simp [initState])
  constructor
  · rw [show stateAfter out start src k =
      (src.take k).foldl (feed out src) (initState start) from rfl, key]
    simp [initState]
  · rw [show stateAfter out start src k =
      (src.take k).foldl (feed out src) (initState start) from rfl, key]
    simp [initState]
    omega

end Stone
